import Mathlib

/-!
gotypes: type rendering, import collection and method synthesis.

A shallow embedding of the three source files of the `gen` package
(`imports.go`, `interface.go`, `type.go`) and theorems about it.

* `go/types` values are modelled by the attributes the code reads
  (`Obj().Pkg()`, `Obj().Name()`, `Elem()`, `Key()`, `Len()`, `Dir()`, `Params()`,
  `Results()`, `Variadic()`, `Field(i)`, `Method(i)`, `String()`).
* `jen.Code` values are modelled by the tree of builder calls that produced them.
* A Go panic is an error value of `Except`; unbounded recursion is modelled with fuel.
-/

set_option autoImplicit false

/-! ## The reflected type model (`go/types`) -/

namespace types

/-- A `*types.Package` is modelled by the package it points to: `Path()` and `Name()`. -/
structure Package where
  path : String
  name : String
deriving DecidableEq, Repr

/-- Channel direction, `types.ChanDir`. -/
inductive ChanDir where
  | SendRecv
  | SendOnly
  | RecvOnly
deriving DecidableEq, Repr

/-- A `*types.Var`: `Name()` and `Type()`. The name is `""` when the variable is unnamed. -/
structure VarOf (τ : Type) where
  name : String
  type : τ

/-- A `*types.Func` as an interface method: `Name()` and `Type()`. -/
structure FuncOf (τ : Type) where
  name : String
  type : τ

/-- A `*types.Basic`; `String()` is its name. -/
structure Basic where
  name : String
deriving DecidableEq, Repr

/-- A `*types.Named`, by `Obj().Pkg()` and `Obj().Name()`. `Obj().Pkg()` is nil (`none`) for
the objects of the universe scope, such as the predeclared `error`. The underlying type is not
part of the model: neither file of the package reads it from a `*types.Named` it was handed
as a `types.Type`. -/
structure Named where
  pkg : Option Package
  name : String
deriving DecidableEq, Repr

/-- A `*types.Pointer`: `Elem()`. -/
structure PointerOf (τ : Type) where
  elem : τ

/-- A `*types.Slice`: `Elem()`. -/
structure SliceOf (τ : Type) where
  elem : τ

/-- A `*types.Array`: `Len()` (an `int64`) and `Elem()`. -/
structure ArrayOf (τ : Type) where
  len : Int
  elem : τ

/-- A `*types.Map`: `Key()` and `Elem()`. -/
structure MapOf (τ : Type) where
  key : τ
  elem : τ

/-- A `*types.Chan`: `Dir()` and `Elem()`. -/
structure ChanOf (τ : Type) where
  dir : ChanDir
  elem : τ

/-- A `*types.Tuple`: `Len()` is the length of `vars`, `At(i)` its `i`-th entry. -/
structure TupleOf (τ : Type) where
  vars : List (VarOf τ)

/-- A `*types.Signature`: `Params()`, `Results()` and `Variadic()`. -/
structure SignatureOf (τ : Type) where
  params : TupleOf τ
  results : TupleOf τ
  variadic : Bool

/-- A `*types.Struct`: `NumFields()` is the length of `fields`, `Field(i)` its `i`-th entry. -/
structure StructOf (τ : Type) where
  fields : List (VarOf τ)

/-- A `*types.Interface`: `NumMethods()` is the length of `methods`, `Method(i)` its `i`-th
entry. The code inspects the dynamic type of `Method(i).Type()`, so a method carries any type. -/
structure InterfaceOf (τ : Type) where
  methods : List (FuncOf τ)

end types

/-- A `types.Type`: the eleven dynamic types that `AddTypeImports` and `GenerateType` switch on.
The `default` branch of both switches (a panic on any other dynamic type) has no counterpart,
the Lean type being closed. -/
inductive GoType where
  | interface (v : types.InterfaceOf GoType)
  | struct (v : types.StructOf GoType)
  | signature (v : types.SignatureOf GoType)
  | tuple (v : types.TupleOf GoType)
  | map (v : types.MapOf GoType)
  | chan (v : types.ChanOf GoType)
  | slice (v : types.SliceOf GoType)
  | array (v : types.ArrayOf GoType)
  | pointer (v : types.PointerOf GoType)
  | named (v : types.Named)
  | basic (v : types.Basic)

namespace types

abbrev Var := VarOf GoType
abbrev Func := FuncOf GoType
abbrev Pointer := PointerOf GoType
abbrev Slice := SliceOf GoType
abbrev Array := ArrayOf GoType
abbrev Map := MapOf GoType
abbrev Chan := ChanOf GoType
abbrev Tuple := TupleOf GoType
abbrev Signature := SignatureOf GoType
abbrev Struct := StructOf GoType
abbrev Interface := InterfaceOf GoType

end types

/-! ## Import collection (`imports.go`) -/

/-- The accumulator `map[*types.Package]struct{}`: a set of package pointers, nil included. -/
abbrev Imports := Finset (Option types.Package)

/-- The function `basicImports`: a basic type adds nothing. -/
def basicImports (_ : types.Basic) (imports : Imports) : Imports := imports

/-- The function `AddNamedImports`: `imports[t.Obj().Pkg()] = struct{}{}`. -/
def AddNamedImports (t : types.Named) (imports : Imports) : Imports :=
  insert t.pkg imports

mutual

/-- The function `AddTypeImports`: the type switch. -/
def AddTypeImports : GoType → Imports → Imports
  | .interface v, imports => AddInterfaceImports v imports
  | .struct v, imports => AddStructImports v imports
  | .signature v, imports => AddFuncImports v imports
  | .tuple v, imports => AddTupleImports v imports
  | .map v, imports => AddMapImports v imports
  | .chan v, imports => AddChanImports v imports
  | .slice v, imports => AddSliceImports v imports
  | .array v, imports => AddArrayImports v imports
  | .pointer v, imports => AddPointerImports v imports
  | .named v, imports => AddNamedImports v imports
  | .basic v, imports => basicImports v imports

/-- The function `AddInterfaceImports`. -/
def AddInterfaceImports : types.Interface → Imports → Imports
  | ⟨methods⟩, imports => AddInterfaceImportsLoop methods imports

/-- The loop of `AddInterfaceImports` over the methods still to visit. -/
def AddInterfaceImportsLoop : List types.Func → Imports → Imports
  | [], imports => imports
  | ⟨_, type⟩ :: rest, imports => AddInterfaceImportsLoop rest (AddTypeImports type imports)

/-- The function `AddStructImports`. -/
def AddStructImports : types.Struct → Imports → Imports
  | ⟨fields⟩, imports => AddStructImportsLoop fields imports

/-- The loop of `AddStructImports` over the fields still to visit. -/
def AddStructImportsLoop : List types.Var → Imports → Imports
  | [], imports => imports
  | ⟨_, type⟩ :: rest, imports => AddStructImportsLoop rest (AddTypeImports type imports)

/-- The function `AddFuncImports`: parameters first, then results. -/
def AddFuncImports : types.Signature → Imports → Imports
  | ⟨params, results, _⟩, imports => AddTupleImports results (AddTupleImports params imports)

/-- The function `AddTupleImports`. -/
def AddTupleImports : types.Tuple → Imports → Imports
  | ⟨vars⟩, imports => AddTupleImportsLoop vars imports

/-- The loop of `AddTupleImports` over the variables still to visit. -/
def AddTupleImportsLoop : List types.Var → Imports → Imports
  | [], imports => imports
  | ⟨_, type⟩ :: rest, imports => AddTupleImportsLoop rest (AddTypeImports type imports)

/-- The function `AddMapImports`: key first, then element. -/
def AddMapImports : types.Map → Imports → Imports
  | ⟨key, elem⟩, imports => AddTypeImports elem (AddTypeImports key imports)

/-- The function `AddChanImports`. -/
def AddChanImports : types.Chan → Imports → Imports
  | ⟨_, elem⟩, imports => AddTypeImports elem imports

/-- The function `AddSliceImports`. -/
def AddSliceImports : types.Slice → Imports → Imports
  | ⟨elem⟩, imports => AddTypeImports elem imports

/-- The function `AddArrayImports`. -/
def AddArrayImports : types.Array → Imports → Imports
  | ⟨_, elem⟩, imports => AddTypeImports elem imports

/-- The function `AddPointerImports`. -/
def AddPointerImports : types.Pointer → Imports → Imports
  | ⟨elem⟩, imports => AddTypeImports elem imports

end

/-- The reachability of the claim on import collection, in its words: the Named types reachable
from a type through pointer, slice, array and channel elements, map keys and values, tuple
elements, signature parameters and results, struct fields and interface methods. A Named type
has no component to descend into. -/
inductive ReachesNamed : GoType → types.Named → Prop where
  | named (n : types.Named) : ReachesNamed (.named n) n
  | pointerElem {elem : GoType} {n : types.Named} :
      ReachesNamed elem n → ReachesNamed (.pointer ⟨elem⟩) n
  | sliceElem {elem : GoType} {n : types.Named} :
      ReachesNamed elem n → ReachesNamed (.slice ⟨elem⟩) n
  | arrayElem {len : Int} {elem : GoType} {n : types.Named} :
      ReachesNamed elem n → ReachesNamed (.array ⟨len, elem⟩) n
  | chanElem {dir : types.ChanDir} {elem : GoType} {n : types.Named} :
      ReachesNamed elem n → ReachesNamed (.chan ⟨dir, elem⟩) n
  | mapKey {key elem : GoType} {n : types.Named} :
      ReachesNamed key n → ReachesNamed (.map ⟨key, elem⟩) n
  | mapElem {key elem : GoType} {n : types.Named} :
      ReachesNamed elem n → ReachesNamed (.map ⟨key, elem⟩) n
  | tupleElem {vars : List types.Var} {v : types.Var} {n : types.Named} :
      v ∈ vars → ReachesNamed v.type n → ReachesNamed (.tuple ⟨vars⟩) n
  | param {params results : types.Tuple} {variadic : Bool} {v : types.Var} {n : types.Named} :
      v ∈ params.vars → ReachesNamed v.type n →
      ReachesNamed (.signature ⟨params, results, variadic⟩) n
  | result {params results : types.Tuple} {variadic : Bool} {v : types.Var} {n : types.Named} :
      v ∈ results.vars → ReachesNamed v.type n →
      ReachesNamed (.signature ⟨params, results, variadic⟩) n
  | field {fields : List types.Var} {v : types.Var} {n : types.Named} :
      v ∈ fields → ReachesNamed v.type n → ReachesNamed (.struct ⟨fields⟩) n
  | method {methods : List types.Func} {m : types.Func} {n : types.Named} :
      m ∈ methods → ReachesNamed m.type n → ReachesNamed (.interface ⟨methods⟩) n

/-- The package pointer `p` is `Obj().Pkg()` of a Named type reachable from `t`. -/
def DeclaresReachable (t : GoType) (p : Option types.Package) : Prop :=
  ∃ n : types.Named, ReachesNamed t n ∧ n.pkg = p


/-! ## Syntax fragments (`jen.Code`) -/

/-- The groups that the builder calls of the package open. -/
inductive GroupKind where
  | params
  | interface
  | struct
  | list
  | map
  | index
  | block
deriving DecidableEq, Repr

/-- A `jen.Code` value, as the tree of builder calls that produced it. A `*jen.Statement`
is the sequence of the items appended to it (`stmt`); `null` is the nil `jen.Code`, the zero
value of a slice element; `keyword` is the item of a call that takes no argument and stands
for a fixed word (`Func()`, `Chan()`, `Bool()`, `Int()`, ...); `litString` is the item of
`Lit(v)` for a Go string `v`, which stands for a string literal, and `litInt` the item of
`Lit(v)` for a Go integer `v`, which stands for an integer literal. -/
inductive Code where
  | null
  | keyword (content : String)
  | op (content : String)
  | id (name : String)
  | qual (path name : String)
  | litString (v : String)
  | litInt (v : Int)
  | group (kind : GroupKind) (items : List Code)
  | stmt (items : List Code)

/-- The items of a `*jen.Statement`, first appended first. -/
abbrev Statement := List Code

def jen.Func : Statement := [Code.keyword "func"]
def jen.Chan : Statement := [Code.keyword "chan"]
def jen.Id (name : String) : Statement := [Code.id name]
def jen.Op (op : String) : Statement := [Code.op op]
def jen.Qual (path name : String) : Statement := [Code.qual path name]
/-- The call `jen.Lit(v)` on a Go value `v` of type `string`. -/
def jen.Lit (v : String) : Statement := [Code.litString v]
def jen.Params (params : List Code) : Statement := [Code.group .params params]
def jen.Interface (methods : List Code) : Statement := [Code.group .interface methods]
def jen.Struct (fields : List Code) : Statement := [Code.group .struct fields]
def jen.Map (typ : Code) : Statement := [Code.group .map [typ]]
def jen.Index (items : List Code) : Statement := [Code.group .index items]
/-- The call `jen.Add(code...)`: a new statement holding the given items. -/
def jen.Add (code : List Code) : Statement := code
def jen.List (items : List Code) : Statement := [Code.group .list items]
/-- The calls `jen.Bool()`, `jen.Int()`, ... `jen.Rune()`: each is the statement holding the
word of the primitive type of its name. -/
def jen.Bool : Statement := [Code.keyword "bool"]
def jen.Int : Statement := [Code.keyword "int"]
def jen.Int8 : Statement := [Code.keyword "int8"]
def jen.Int16 : Statement := [Code.keyword "int16"]
def jen.Int32 : Statement := [Code.keyword "int32"]
def jen.Int64 : Statement := [Code.keyword "int64"]
def jen.Uint : Statement := [Code.keyword "uint"]
def jen.Uint8 : Statement := [Code.keyword "uint8"]
def jen.Uint16 : Statement := [Code.keyword "uint16"]
def jen.Uint32 : Statement := [Code.keyword "uint32"]
def jen.Uint64 : Statement := [Code.keyword "uint64"]
def jen.Uintptr : Statement := [Code.keyword "uintptr"]
def jen.Float32 : Statement := [Code.keyword "float32"]
def jen.Float64 : Statement := [Code.keyword "float64"]
def jen.Complex64 : Statement := [Code.keyword "complex64"]
def jen.Complex128 : Statement := [Code.keyword "complex128"]
def jen.String : Statement := [Code.keyword "string"]
def jen.Byte : Statement := [Code.keyword "byte"]
def jen.Rune : Statement := [Code.keyword "rune"]

/-- The method `s.Add(code...)`: `*s = append(*s, code...)`. -/
def Statement.Add (s : Statement) (code : List Code) : Statement := s ++ code
def Statement.Id (s : Statement) (name : String) : Statement := s ++ jen.Id name
def Statement.Op (s : Statement) (op : String) : Statement := s ++ jen.Op op
def Statement.Chan (s : Statement) : Statement := s ++ jen.Chan
def Statement.Params (s : Statement) (params : List Code) : Statement := s ++ jen.Params params
/-- The method `s.BlockFunc(f)`, given the items that `f` left in the group. -/
def Statement.Block (s : Statement) (items : List Code) : Statement :=
  s ++ [Code.group .block items]

/-! ## Faults -/

/-- The ways a call fails to return a fragment: the Go run-time panics the code can raise, its
own `panic("unsupported type")`, and the exhaustion of the recursion budget of the model. -/
inductive Fault where
  | indexOutOfRange
  | nilDereference
  | makesliceCapOutOfRange
  | unsupportedType
  | outOfFuel
deriving DecidableEq, Repr

/-- The method `(*types.Package).Path`, which reads a field of its receiver: nil panics. -/
def types.Package.Path : Option types.Package → Except Fault String
  | some pkg => .ok pkg.path
  | none => .error .nilDereference

/-! ## Type rendering (`type.go`) -/

/-- The recursive call `GenerateType(...)` as seen from the functions it dispatches to. -/
abbrev Render := GoType → Except Fault Code

/-- The function `generateBasicType`: the switch on `t.String()`. Each case returns the
statement of the builder call of the same name (`jen.Bool()`, `jen.Int()`, ...); the default
case is `panic("unsupported type")`. -/
def generateBasicType (t : types.Basic) : Except Fault Code :=
  match t.name with
  | "bool" => .ok (.stmt jen.Bool)
  | "int" => .ok (.stmt jen.Int)
  | "int8" => .ok (.stmt jen.Int8)
  | "int16" => .ok (.stmt jen.Int16)
  | "int32" => .ok (.stmt jen.Int32)
  | "int64" => .ok (.stmt jen.Int64)
  | "uint" => .ok (.stmt jen.Uint)
  | "uint8" => .ok (.stmt jen.Uint8)
  | "uint16" => .ok (.stmt jen.Uint16)
  | "uint32" => .ok (.stmt jen.Uint32)
  | "uint64" => .ok (.stmt jen.Uint64)
  | "uintptr" => .ok (.stmt jen.Uintptr)
  | "float32" => .ok (.stmt jen.Float32)
  | "float64" => .ok (.stmt jen.Float64)
  | "complex64" => .ok (.stmt jen.Complex64)
  | "complex128" => .ok (.stmt jen.Complex128)
  | "string" => .ok (.stmt jen.String)
  | "byte" => .ok (.stmt jen.Byte)
  | "rune" => .ok (.stmt jen.Rune)
  | _ => .error .unsupportedType

/-- The function `generateNamedType`: `jen.Qual(pkg.Path(), obj.Name())`. -/
def generateNamedType (t : types.Named) : Except Fault Code := do
  let path ← types.Package.Path t.pkg
  pure (.stmt (jen.Qual path t.name))

/-- The function `generatePointerType`. The source passes `t`, the pointer type itself, to
`GenerateType`. -/
def generatePointerType (GenerateType : Render) (t : types.Pointer) : Except Fault Code := do
  let c ← GenerateType (.pointer t)
  pure (.stmt ((jen.Op "*").Add [c]))

/-- The function `generateArrayType`: the length goes through `strconv.FormatInt(_, 10)`,
so `jen.Lit` receives a string. -/
def generateArrayType (GenerateType : Render) (t : types.Array) : Except Fault Code := do
  let c ← GenerateType t.elem
  pure (.stmt (Statement.Add (jen.Index [.stmt (jen.Lit (toString t.len))]) [c]))

/-- The function `generateSliceType`. The source passes `t`, the slice type itself, to
`GenerateType`. -/
def generateSliceType (GenerateType : Render) (t : types.Slice) : Except Fault Code := do
  let c ← GenerateType (.slice t)
  pure (.stmt (Statement.Add (jen.Index []) [c]))

/-- The function `generateChanType`. The source passes `t`, the channel type itself, to
`GenerateType`. -/
def generateChanType (GenerateType : Render) (t : types.Chan) : Except Fault Code :=
  match t.dir with
  | .SendOnly => do
    let c ← GenerateType (.chan t)
    pure (.stmt ((jen.Chan.Op "<-").Add [c]))
  | .RecvOnly => do
    let c ← GenerateType (.chan t)
    pure (.stmt (((jen.Op "<-").Chan).Add [c]))
  | .SendRecv => do
    let c ← GenerateType (.chan t)
    pure (.stmt (jen.Chan.Add [c]))

/-- The function `generateMapType`. The source passes `t`, the map type itself, to both calls
of `GenerateType`. -/
def generateMapType (GenerateType : Render) (t : types.Map) : Except Fault Code := do
  let k ← GenerateType (.map t)
  let e ← GenerateType (.map t)
  pure (.stmt (Statement.Add (jen.Map k) [e]))

/-- The loop of `generateTupleType`: `params` holds the entries appended so far. -/
def generateTupleTypeLoop (GenerateType : Render) :
    List types.Var → List Code → Except Fault (List Code)
  | [], params => pure params
  | v :: rest, params => do
    let c ← GenerateType v.type
    generateTupleTypeLoop GenerateType rest (params ++ [c])

/-- The function `generateTupleType`. -/
def generateTupleType (GenerateType : Render) (t : types.Tuple) : Except Fault Code := do
  let params ← generateTupleTypeLoop GenerateType t.vars []
  pure (.stmt (jen.List params))

/-- The first loop of `generateFuncParams`, `for i := 0; i < n; i++` over `variables.At(i)`,
as a recursion over the variables still to visit; `params` holds the entries appended so far. -/
def generateFuncParamsLoop (GenerateType : Render) :
    List types.Var → List Code → Except Fault (List Code)
  | [], params => pure params
  | v :: rest, params =>
    if v.name ≠ "" then do
      let c ← GenerateType v.type
      generateFuncParamsLoop GenerateType rest (params ++ [.stmt ((jen.Id v.name).Add [c])])
    else do
      let c ← GenerateType v.type
      generateFuncParamsLoop GenerateType rest (params ++ [c])

/-- The function `generateFuncParams`. `n` is `variables.Len()`, less one when the signature is
variadic; `make([]jen.Code, 0, n)` panics on a negative `n`; the loop visits the first `n`
variables; a variadic signature then appends `variables.At(n)`, rendered from
`variable.Type()`. -/
def generateFuncParams (GenerateType : Render) (t : types.Signature) : Except Fault Code :=
  let vars := t.params
  let n : Int := (vars.vars.length : Int) - (if t.variadic then 1 else 0)
  if n < 0 then .error .makesliceCapOutOfRange
  else do
    let params ← generateFuncParamsLoop GenerateType (vars.vars.take n.toNat) []
    if t.variadic then
      match vars.vars.get? n.toNat with
      | none => .error .indexOutOfRange
      | some v =>
        if v.name ≠ "" then do
          let c ← GenerateType v.type
          pure (.stmt (jen.Params
            (params ++ [.stmt ((jen.Id v.name).Add [.stmt (jen.Op "..."), c])])))
        else do
          let c ← GenerateType v.type
          pure (.stmt (jen.Params (params ++ [.stmt (jen.Add [.stmt (jen.Op "..."), c])])))
    else
      pure (.stmt (jen.Params params))

/-- The loop of `generateFuncResults`, as a recursion over the variables still to visit;
`areNamed` and `params` are the loop variables of the source. -/
def generateFuncResultsLoop (GenerateType : Render) :
    List types.Var → Bool → List Code → Except Fault (Bool × List Code)
  | [], areNamed, params => pure (areNamed, params)
  | v :: rest, areNamed, params =>
    if v.name ≠ "" then do
      let c ← GenerateType v.type
      generateFuncResultsLoop GenerateType rest true
        (params ++ [.stmt ((jen.Id v.name).Add [c])])
    else do
      let c ← GenerateType v.type
      generateFuncResultsLoop GenerateType rest areNamed (params ++ [c])

/-- The function `generateFuncResults`. The `else` branch reads `params[0]`, which panics on an
empty slice. -/
def generateFuncResults (GenerateType : Render) (t : types.Signature) : Except Fault Code := do
  let vars := t.results
  let n := vars.vars.length
  let (areNamed, params) ← generateFuncResultsLoop GenerateType vars.vars false []
  if n > 1 || areNamed then
    pure (.stmt (jen.Params params))
  else
    match params.get? 0 with
    | some code => pure code
    | none => .error .indexOutOfRange

/-- The function `generateFuncType`. -/
def generateFuncType (GenerateType : Render) (t : types.Signature) : Except Fault Code := do
  let p ← generateFuncParams GenerateType t
  let r ← generateFuncResults GenerateType t
  pure (.stmt ((jen.Func.Add [p]).Add [r]))

/-- The loop of `generateStructType`; `fields` holds the entries appended so far. -/
def generateStructTypeLoop (GenerateType : Render) :
    List types.Var → List Code → Except Fault (List Code)
  | [], fields => pure fields
  | field :: rest, fields => do
    let c ← GenerateType field.type
    generateStructTypeLoop GenerateType rest (fields ++ [.stmt ((jen.Id field.name).Add [c])])

/-- The function `generateStructType`. -/
def generateStructType (GenerateType : Render) (t : types.Struct) : Except Fault Code := do
  let fields ← generateStructTypeLoop GenerateType t.fields []
  pure (.stmt (jen.Struct fields))

/-- The first `if` of the loop body of `generateInterfaceType`: a method whose type is a
`*types.Named` appends `jen.Qual(nd.Obj().Pkg().Path(), nd.Obj().Name())`. -/
def generateInterfaceTypeNamed (method : types.Func) (methods : List Code) :
    Except Fault (List Code) :=
  match method.type with
  | .named nd => do
    let path ← types.Package.Path nd.pkg
    pure (methods ++ [.stmt (jen.Qual path nd.name)])
  | _ => pure methods

/-- The second `if` of the loop body of `generateInterfaceType`: a method whose type is a
`*types.Signature` appends its name, parameter list and result list. -/
def generateInterfaceTypeSignature (GenerateType : Render) (method : types.Func)
    (methods : List Code) : Except Fault (List Code) :=
  match method.type with
  | .signature s => do
    let p ← generateFuncParams GenerateType s
    let r ← generateFuncResults GenerateType s
    pure (methods ++ [.stmt (((jen.Id method.name).Add [p]).Add [r])])
  | _ => pure methods

/-- The loop of `generateInterfaceType`; `methods` holds the slice built so far. -/
def generateInterfaceTypeLoop (GenerateType : Render) :
    List types.Func → List Code → Except Fault (List Code)
  | [], methods => pure methods
  | method :: rest, methods => do
    let methods ← generateInterfaceTypeNamed method methods
    let methods ← generateInterfaceTypeSignature GenerateType method methods
    generateInterfaceTypeLoop GenerateType rest methods

/-- The function `generateInterfaceType`. `make([]jen.Code, n)` is a slice of `n` nil entries,
and the loop appends to it. -/
def generateInterfaceType (GenerateType : Render) (t : types.Interface) : Except Fault Code := do
  let n := t.methods.length
  let methods ← generateInterfaceTypeLoop GenerateType t.methods (List.replicate n Code.null)
  pure (.stmt (jen.Interface methods))

/-- The function `GenerateType`: the type switch. Every call spends one unit of `fuel`; the
functions it dispatches to make their recursive calls with what is left. A call that has no
fuel left stands for a recursion that has not come to an end. -/
def GenerateType : Nat → GoType → Except Fault Code
  | 0, _ => .error .outOfFuel
  | fuel + 1, .interface v => generateInterfaceType (GenerateType fuel) v
  | fuel + 1, .struct v => generateStructType (GenerateType fuel) v
  | fuel + 1, .signature v => generateFuncType (GenerateType fuel) v
  | fuel + 1, .tuple v => generateTupleType (GenerateType fuel) v
  | fuel + 1, .map v => generateMapType (GenerateType fuel) v
  | fuel + 1, .chan v => generateChanType (GenerateType fuel) v
  | fuel + 1, .slice v => generateSliceType (GenerateType fuel) v
  | fuel + 1, .array v => generateArrayType (GenerateType fuel) v
  | fuel + 1, .pointer v => generatePointerType (GenerateType fuel) v
  | _ + 1, .named v => generateNamedType v
  | _ + 1, .basic v => generateBasicType v

/-! ## Interfaces and method synthesis (`interface.go`) -/

/-- The struct `Interface`: a declared name and the interface type. -/
structure Interface where
  Name : String
  Value : types.Interface

/-- The function `FilterInterfaces`: `namesMap` is built from `names`, then the items are
visited in order and the ones whose name is a key of `namesMap` are appended. -/
def FilterInterfaces (items : List Interface) (names : List String) : List Interface :=
  let namesMap : Finset String := names.foldl (fun m name => insert name m) ∅
  items.foldl
    (fun filteredItems item => if item.Name ∈ namesMap then filteredItems ++ [item]
      else filteredItems)
    []

/-- The function `GenerateMethod`. The callback may have effects of its own, so it is a state
transformer on a state `σ` of the caller; `BlockFunc` runs it once, after both lists have been
rendered, and adds its fragment to the block. -/
def GenerateMethod {σ : Type} (GenerateType : Render) (typeName receiver method : String)
    (signature : types.Signature) (bodyFunc : σ → Code × σ) (st : σ) :
    Except Fault (Code × σ) := do
  let p ← generateFuncParams GenerateType signature
  let r ← generateFuncResults GenerateType signature
  let (b, st) := bodyFunc st
  pure (.stmt ((((jen.Func.Params [.stmt ((jen.Id receiver).Id typeName)]).Id method).Add
    [p]).Add [r] |>.Block [.stmt (jen.Add [b])]), st)

/-- The loop of `ImplementInterfaceMethods`; `funcs` holds the declarations appended so far. -/
def ImplementInterfaceMethodsLoop {σ : Type} (GenerateType : Render) (typeName receiver : String)
    (f : String → types.Signature → σ → Code × σ) :
    List types.Func → List Code → σ → Except Fault (List Code × σ)
  | [], funcs, st => pure (funcs, st)
  | method :: rest, funcs, st =>
    match method.type with
    | .signature signature => do
      let (code, st) ← GenerateMethod GenerateType typeName receiver method.name signature
        (f method.name signature) st
      ImplementInterfaceMethodsLoop GenerateType typeName receiver f rest (funcs ++ [code]) st
    | _ => ImplementInterfaceMethodsLoop GenerateType typeName receiver f rest funcs st

/-- The function `ImplementInterfaceMethods`. -/
def ImplementInterfaceMethods {σ : Type} (GenerateType : Render) (typeName receiver : String)
    (iface : types.Interface) (f : String → types.Signature → σ → Code × σ) (st : σ) :
    Except Fault (List Code × σ) :=
  ImplementInterfaceMethodsLoop GenerateType typeName receiver f iface.methods [] st

/-! ## Specification-side definitions -/

/-- An entry of a parameter or result list, in the words of the spec: name + type when the
element carries a name, the bare type otherwise. `r` gives the rendering of each type. -/
def listEntry (r : GoType → Code) (v : types.Var) : Code :=
  if v.name = "" then r v.type else .stmt [.id v.name, r v.type]

/-- The methods of an interface whose declared type is a Signature, in declaration order, each
with its name. -/
def signatureMethods (iface : types.Interface) : List (String × types.Signature) :=
  iface.methods.filterMap fun m =>
    match m.type with
    | .signature s => some (m.name, s)
    | _ => none

/-- The declaration `func (receiver typeName) method params results { body }` of the spec,
from the fragments of its parameter list, result list and body. -/
def methodDecl (typeName receiver method : String) (params results body : Code) : Code :=
  .stmt [.keyword "func", .group .params [.stmt [.id receiver, .id typeName]], .id method,
    params, results, .group .block [.stmt [body]]]

/-- What the spec asks of the synthesizer on the methods `ms`: the callback runs once per
method, in order, on the state the previous call left, and its fragment is the body of the
declaration of that method. `p` and `r` give the rendered parameter and result lists. -/
def synthesized {σ : Type} (p r : types.Signature → Code) (typeName receiver : String)
    (f : String → types.Signature → σ → Code × σ) :
    List (String × types.Signature) → σ → List Code × σ
  | [], st => ([], st)
  | m :: rest, st =>
    let out := f m.1 m.2 st
    let tail := synthesized p r typeName receiver f rest out.2
    (methodDecl typeName receiver m.1 (p m.2) (r m.2) out.1 :: tail.1, tail.2)

/-- The fragment `GenerateType` returns with the given fuel, `null` when it returns none. -/
def rendered (fuel : Nat) (t : GoType) : Code :=
  match GenerateType fuel t with
  | .ok code => code
  | .error _ => .null

/-- The parameter list `generateFuncParams` returns with the given fuel. -/
def renderedParams (fuel : Nat) (s : types.Signature) : Code :=
  match generateFuncParams (GenerateType fuel) s with
  | .ok code => code
  | .error _ => .null

/-- The result list `generateFuncResults` returns with the given fuel. -/
def renderedResults (fuel : Nat) (s : types.Signature) : Code :=
  match generateFuncResults (GenerateType fuel) s with
  | .ok code => code
  | .error _ => .null

/-! ## Example values -/

def tInt : GoType := .basic ⟨"int"⟩
def tBool : GoType := .basic ⟨"bool"⟩
def tString : GoType := .basic ⟨"string"⟩

/-- The predeclared type `error`: a Named type of the universe scope, whose `Obj().Pkg()`
is nil. -/
def tError : GoType := .named ⟨none, "error"⟩

/-- The signature of `Get(key string) (value int, ok bool)`. -/
def sigGet : types.Signature :=
  ⟨⟨[⟨"key", tString⟩]⟩, ⟨[⟨"value", tInt⟩, ⟨"ok", tBool⟩]⟩, false⟩

/-- The signature of `Close() error`. -/
def sigClose : types.Signature := ⟨⟨[]⟩, ⟨[⟨"", tError⟩]⟩, false⟩

/-- The signature of `Size() int`. -/
def sigSize : types.Signature := ⟨⟨[]⟩, ⟨[⟨"", tInt⟩]⟩, false⟩

/-- The signature of `Sum(xs ...int)`: the variadic parameter has the slice type `[]int`. -/
def sigSum : types.Signature := ⟨⟨[⟨"xs", .slice ⟨tInt⟩⟩]⟩, ⟨[⟨"", tInt⟩]⟩, true⟩

/-- The basic type `unsafe.Pointer`, a `*types.Basic` whose name is not in the table of
`generateBasicType`. -/
def tUnsafePointer : GoType := .basic ⟨"unsafe.Pointer"⟩

/-- The signature of `Swap(p unsafe.Pointer) (old unsafe.Pointer, ok bool)`. -/
def sigSwap : types.Signature :=
  ⟨⟨[⟨"p", tUnsafePointer⟩]⟩, ⟨[⟨"old", tUnsafePointer⟩, ⟨"ok", tBool⟩]⟩, false⟩

/-- The signature of `Addr() unsafe.Pointer`: one result, which has no name. -/
def sigAddr : types.Signature := ⟨⟨[]⟩, ⟨[⟨"", tUnsafePointer⟩]⟩, false⟩

/-- An interface with the single method `Swap`. -/
def swapIface : types.Interface := ⟨[⟨"Swap", .signature sigSwap⟩]⟩

/-- An interface with the methods `Get` and `Size` and, between them, a method entry whose
declared type is the Named type `io.Closer`. -/
def storeIface : types.Interface :=
  ⟨[⟨"Get", .signature sigGet⟩, ⟨"Closer", .named ⟨some ⟨"io", "io"⟩, "Closer"⟩⟩,
    ⟨"Size", .signature sigSize⟩]⟩

/-- A callback that records each call, name and signature, in the state and returns the
method name as the body. -/
def recordCall (name : String) (signature : types.Signature)
    (calls : List (String × types.Signature)) : Code × List (String × types.Signature) :=
  (.id name, calls ++ [(name, signature)])

/-- The struct `type Node struct { next *Node }` of a package `example.com/list`: the field
is a pointer to the Named type of the struct itself. -/
def listNode : GoType :=
  .struct ⟨[⟨"next", .pointer ⟨.named ⟨some ⟨"example.com/list", "list"⟩, "Node"⟩⟩⟩]⟩

/-! ## Import collection with a budget of nested calls -/

/-- A loop of the import collector over the types of the entries of a list, each visited by
`visit`, which stands for the call of `AddTypeImports`; `none` as soon as a call does not
return. -/
def AddImportsLoopWithin (visit : GoType → Imports → Option Imports) :
    List GoType → Imports → Option Imports
  | [], imports => some imports
  | t :: rest, imports =>
    match visit t imports with
    | some imports => AddImportsLoopWithin visit rest imports
    | none => none

/-- The type switch of `AddTypeImports` and the functions it dispatches to, once more, with a
budget on the depth of the nested calls of `AddTypeImports`: every call spends one unit, and
a call that has none left returns nothing (`none`). -/
def AddTypeImportsWithin : Nat → GoType → Imports → Option Imports
  | 0, _, _ => none
  | fuel + 1, .interface v, imports =>
    AddImportsLoopWithin (AddTypeImportsWithin fuel) (v.methods.map fun m => m.type) imports
  | fuel + 1, .struct v, imports =>
    AddImportsLoopWithin (AddTypeImportsWithin fuel) (v.fields.map fun f => f.type) imports
  | fuel + 1, .signature v, imports =>
    match AddImportsLoopWithin (AddTypeImportsWithin fuel)
        (v.params.vars.map fun p => p.type) imports with
    | some imports =>
      AddImportsLoopWithin (AddTypeImportsWithin fuel) (v.results.vars.map fun r => r.type)
        imports
    | none => none
  | fuel + 1, .tuple v, imports =>
    AddImportsLoopWithin (AddTypeImportsWithin fuel) (v.vars.map fun p => p.type) imports
  | fuel + 1, .map v, imports =>
    match AddTypeImportsWithin fuel v.key imports with
    | some imports => AddTypeImportsWithin fuel v.elem imports
    | none => none
  | fuel + 1, .chan v, imports => AddTypeImportsWithin fuel v.elem imports
  | fuel + 1, .slice v, imports => AddTypeImportsWithin fuel v.elem imports
  | fuel + 1, .array v, imports => AddTypeImportsWithin fuel v.elem imports
  | fuel + 1, .pointer v, imports => AddTypeImportsWithin fuel v.elem imports
  | _ + 1, .named v, imports => some (AddNamedImports v imports)
  | _ + 1, .basic v, imports => some (basicImports v imports)

mutual

/-- The depth of a type: the longest chain of components from the type down to a Named or
Basic type, which are of depth 1. -/
def GoType.depth : GoType → Nat
  | .interface ⟨methods⟩ => depthFuncs methods + 1
  | .struct ⟨fields⟩ => depthVars fields + 1
  | .signature ⟨⟨params⟩, ⟨results⟩, _⟩ => max (depthVars params) (depthVars results) + 1
  | .tuple ⟨vars⟩ => depthVars vars + 1
  | .map ⟨key, elem⟩ => max key.depth elem.depth + 1
  | .chan ⟨_, elem⟩ => elem.depth + 1
  | .slice ⟨elem⟩ => elem.depth + 1
  | .array ⟨_, elem⟩ => elem.depth + 1
  | .pointer ⟨elem⟩ => elem.depth + 1
  | .named _ => 1
  | .basic _ => 1

/-- The greatest depth of the types of a list of variables. -/
def depthVars : List types.Var → Nat
  | [] => 0
  | ⟨_, type⟩ :: rest => max type.depth (depthVars rest)

/-- The greatest depth of the types of a list of methods. -/
def depthFuncs : List types.Func → Nat
  | [] => 0
  | ⟨_, type⟩ :: rest => max type.depth (depthFuncs rest)

end

/-- The names of the table of the claim on basic types, in its order. -/
def basicNames : List String :=
  ["bool", "int", "int8", "int16", "int32", "int64", "uint", "uint8", "uint16", "uint32",
    "uint64", "uintptr", "float32", "float64", "complex64", "complex128", "string", "byte",
    "rune"]

/-- The fragment of the array type `[len]elem` in the words of the spec: the index group
holding the length as an integer literal, followed by the rendered element type. -/
def arrayFragment (len : Int) (elem : Code) : Code :=
  .stmt [.group .index [.stmt [.litInt len]], elem]

/-- The interface `interface { Size() int }`. -/
def sizerIface : types.Interface := ⟨[⟨"Size", .signature sigSize⟩]⟩

/-! ## Finding the interfaces of a package (`interface.go`) -/

/-- A `*types.Scope` as `FindAllInterfaces` reads it: `Names()`, the names of the objects of
the scope, which `go/types` returns sorted, and for a name of the scope the `Type()` of the
object `Lookup(name)` finds. -/
structure types.Scope where
  Names : List String
  LookupType : String → GoType

/-- The loop of `FindAllInterfaces` over the names still to visit; `items` holds the entries
appended so far. `Underlying` is the method `(*types.Named).Underlying`. -/
def FindAllInterfacesLoop (Underlying : types.Named → GoType) (pkgScope : types.Scope) :
    List String → List Interface → List Interface
  | [], items => items
  | name :: rest, items =>
    match pkgScope.LookupType name with
    | .named named =>
      match Underlying named with
      | .interface iface =>
        FindAllInterfacesLoop Underlying pkgScope rest (items ++ [⟨name, iface⟩])
      | _ => FindAllInterfacesLoop Underlying pkgScope rest items
    | _ => FindAllInterfacesLoop Underlying pkgScope rest items

/-- The function `FindAllInterfaces`; the package is given by its `Scope()`. -/
def FindAllInterfaces (Underlying : types.Named → GoType) (pkgScope : types.Scope) :
    List Interface :=
  FindAllInterfacesLoop Underlying pkgScope pkgScope.Names []

/-- The entry the code makes for a name of the scope: one when the type of the object is a
Named type whose underlying type is an Interface, none otherwise. -/
def interfaceEntry (Underlying : types.Named → GoType) (pkgScope : types.Scope)
    (name : String) : Option Interface :=
  match pkgScope.LookupType name with
  | .named named =>
    match Underlying named with
    | .interface iface => some ⟨name, iface⟩
    | _ => none
  | _ => none

/-- Whether a name is exported, as `go/token.IsExported` has it, for a name that starts with
an ASCII letter: its first character is upper case. -/
def IsExported (name : String) : Bool := (name.get 0).isUpper

/-- The Named types `Reader` and `reader` of a package `example.com/store`. -/
def namedReader : types.Named := ⟨some ⟨"example.com/store", "store"⟩, "Reader"⟩
def namedLowerReader : types.Named := ⟨some ⟨"example.com/store", "store"⟩, "reader"⟩

/-- The scope of a package that declares `type Reader interface { Size() int }`, the
unexported `type reader interface { Size() int }`, `type count int` and the variable
`var Default interface { Size() int }`, whose type is an interface type without a name. -/
def storeScope : types.Scope where
  Names := ["Default", "Reader", "count", "reader"]
  LookupType := fun name =>
    if name = "Default" then .interface sizerIface
    else if name = "Reader" then .named namedReader
    else if name = "reader" then .named namedLowerReader
    else .named ⟨some ⟨"example.com/store", "store"⟩, "count"⟩

/-- The underlying types of the Named types of that package. -/
def storeUnderlying (named : types.Named) : GoType :=
  if named.name = "Reader" ∨ named.name = "reader" then .interface sizerIface else tInt

/-! ## Import collection: what is collected -/

theorem declaresReachable_named (v : types.Named) (p : Option types.Package) :
    DeclaresReachable (.named v) p ↔ v.pkg = p := by
  constructor
  · rintro ⟨n, h, rfl⟩
    cases h
    rfl
  · intro h
    exact ⟨v, .named v, h⟩

theorem declaresReachable_basic (v : types.Basic) (p : Option types.Package) :
    ¬ DeclaresReachable (.basic v) p := by
  rintro ⟨n, h, -⟩
  cases h

theorem declaresReachable_pointer (elem : GoType) (p : Option types.Package) :
    DeclaresReachable (.pointer ⟨elem⟩) p ↔ DeclaresReachable elem p := by
  constructor
  · rintro ⟨n, h, rfl⟩
    cases h with
    | pointerElem h => exact ⟨n, h, rfl⟩
  · rintro ⟨n, h, rfl⟩
    exact ⟨n, .pointerElem h, rfl⟩

theorem declaresReachable_slice (elem : GoType) (p : Option types.Package) :
    DeclaresReachable (.slice ⟨elem⟩) p ↔ DeclaresReachable elem p := by
  constructor
  · rintro ⟨n, h, rfl⟩
    cases h with
    | sliceElem h => exact ⟨n, h, rfl⟩
  · rintro ⟨n, h, rfl⟩
    exact ⟨n, .sliceElem h, rfl⟩

theorem declaresReachable_array (len : Int) (elem : GoType) (p : Option types.Package) :
    DeclaresReachable (.array ⟨len, elem⟩) p ↔ DeclaresReachable elem p := by
  constructor
  · rintro ⟨n, h, rfl⟩
    cases h with
    | arrayElem h => exact ⟨n, h, rfl⟩
  · rintro ⟨n, h, rfl⟩
    exact ⟨n, .arrayElem h, rfl⟩

theorem declaresReachable_chan (dir : types.ChanDir) (elem : GoType) (p : Option types.Package) :
    DeclaresReachable (.chan ⟨dir, elem⟩) p ↔ DeclaresReachable elem p := by
  constructor
  · rintro ⟨n, h, rfl⟩
    cases h with
    | chanElem h => exact ⟨n, h, rfl⟩
  · rintro ⟨n, h, rfl⟩
    exact ⟨n, .chanElem h, rfl⟩

theorem declaresReachable_map (key elem : GoType) (p : Option types.Package) :
    DeclaresReachable (.map ⟨key, elem⟩) p ↔
      DeclaresReachable key p ∨ DeclaresReachable elem p := by
  constructor
  · rintro ⟨n, h, rfl⟩
    cases h with
    | mapKey h => exact Or.inl ⟨n, h, rfl⟩
    | mapElem h => exact Or.inr ⟨n, h, rfl⟩
  · rintro (⟨n, h, rfl⟩ | ⟨n, h, rfl⟩)
    · exact ⟨n, .mapKey h, rfl⟩
    · exact ⟨n, .mapElem h, rfl⟩

theorem declaresReachable_tuple (vars : List types.Var) (p : Option types.Package) :
    DeclaresReachable (.tuple ⟨vars⟩) p ↔ ∃ v ∈ vars, DeclaresReachable v.type p := by
  constructor
  · rintro ⟨n, h, rfl⟩
    cases h with
    | tupleElem hv h => exact ⟨_, hv, n, h, rfl⟩
  · rintro ⟨v, hv, n, h, rfl⟩
    exact ⟨n, .tupleElem hv h, rfl⟩

theorem declaresReachable_struct (fields : List types.Var) (p : Option types.Package) :
    DeclaresReachable (.struct ⟨fields⟩) p ↔ ∃ v ∈ fields, DeclaresReachable v.type p := by
  constructor
  · rintro ⟨n, h, rfl⟩
    cases h with
    | field hv h => exact ⟨_, hv, n, h, rfl⟩
  · rintro ⟨v, hv, n, h, rfl⟩
    exact ⟨n, .field hv h, rfl⟩

theorem declaresReachable_interface (methods : List types.Func) (p : Option types.Package) :
    DeclaresReachable (.interface ⟨methods⟩) p ↔ ∃ m ∈ methods, DeclaresReachable m.type p := by
  constructor
  · rintro ⟨n, h, rfl⟩
    cases h with
    | method hv h => exact ⟨_, hv, n, h, rfl⟩
  · rintro ⟨v, hv, n, h, rfl⟩
    exact ⟨n, .method hv h, rfl⟩

theorem declaresReachable_signature (params results : List types.Var) (variadic : Bool)
    (p : Option types.Package) :
    DeclaresReachable (.signature ⟨⟨params⟩, ⟨results⟩, variadic⟩) p ↔
      (∃ v ∈ params, DeclaresReachable v.type p) ∨
        ∃ v ∈ results, DeclaresReachable v.type p := by
  constructor
  · rintro ⟨n, h, rfl⟩
    cases h with
    | param hv h => exact Or.inl ⟨_, hv, n, h, rfl⟩
    | result hv h => exact Or.inr ⟨_, hv, n, h, rfl⟩
  · rintro (⟨v, hv, n, h, rfl⟩ | ⟨v, hv, n, h, rfl⟩)
    · exact ⟨n, .param hv h, rfl⟩
    · exact ⟨n, .result hv h, rfl⟩

mutual

theorem mem_AddTypeImports (p : Option types.Package) :
    ∀ (t : GoType) (acc : Imports), p ∈ AddTypeImports t acc ↔ p ∈ acc ∨ DeclaresReachable t p
  | .interface ⟨methods⟩, acc => by
    rw [AddTypeImports, AddInterfaceImports, mem_AddInterfaceImportsLoop p methods acc,
      declaresReachable_interface]
  | .struct ⟨fields⟩, acc => by
    rw [AddTypeImports, AddStructImports, mem_AddStructImportsLoop p fields acc,
      declaresReachable_struct]
  | .signature ⟨⟨params⟩, ⟨results⟩, variadic⟩, acc => by
    rw [AddTypeImports, AddFuncImports, AddTupleImports, AddTupleImports,
      mem_AddTupleImportsLoop p results, mem_AddTupleImportsLoop p params acc,
      declaresReachable_signature, or_assoc]
  | .tuple ⟨vars⟩, acc => by
    rw [AddTypeImports, AddTupleImports, mem_AddTupleImportsLoop p vars acc,
      declaresReachable_tuple]
  | .map ⟨key, elem⟩, acc => by
    rw [AddTypeImports, AddMapImports, mem_AddTypeImports p elem, mem_AddTypeImports p key acc,
      declaresReachable_map, or_assoc]
  | .chan ⟨dir, elem⟩, acc => by
    rw [AddTypeImports, AddChanImports, mem_AddTypeImports p elem acc, declaresReachable_chan]
  | .slice ⟨elem⟩, acc => by
    rw [AddTypeImports, AddSliceImports, mem_AddTypeImports p elem acc, declaresReachable_slice]
  | .array ⟨len, elem⟩, acc => by
    rw [AddTypeImports, AddArrayImports, mem_AddTypeImports p elem acc, declaresReachable_array]
  | .pointer ⟨elem⟩, acc => by
    rw [AddTypeImports, AddPointerImports, mem_AddTypeImports p elem acc,
      declaresReachable_pointer]
  | .named v, acc => by
    rw [AddTypeImports, AddNamedImports, Finset.mem_insert, declaresReachable_named, or_comm,
      eq_comm]
  | .basic v, acc => by
    rw [AddTypeImports, basicImports]
    simp [declaresReachable_basic]

theorem mem_AddInterfaceImportsLoop (p : Option types.Package) :
    ∀ (methods : List types.Func) (acc : Imports),
      p ∈ AddInterfaceImportsLoop methods acc ↔
        p ∈ acc ∨ ∃ m ∈ methods, DeclaresReachable m.type p
  | [], acc => by simp [AddInterfaceImportsLoop]
  | ⟨name, type⟩ :: rest, acc => by
    rw [AddInterfaceImportsLoop, mem_AddInterfaceImportsLoop p rest, mem_AddTypeImports p type acc]
    simp only [List.mem_cons, exists_eq_or_imp, or_assoc]

theorem mem_AddStructImportsLoop (p : Option types.Package) :
    ∀ (fields : List types.Var) (acc : Imports),
      p ∈ AddStructImportsLoop fields acc ↔
        p ∈ acc ∨ ∃ v ∈ fields, DeclaresReachable v.type p
  | [], acc => by simp [AddStructImportsLoop]
  | ⟨name, type⟩ :: rest, acc => by
    rw [AddStructImportsLoop, mem_AddStructImportsLoop p rest, mem_AddTypeImports p type acc]
    simp only [List.mem_cons, exists_eq_or_imp, or_assoc]

theorem mem_AddTupleImportsLoop (p : Option types.Package) :
    ∀ (vars : List types.Var) (acc : Imports),
      p ∈ AddTupleImportsLoop vars acc ↔
        p ∈ acc ∨ ∃ v ∈ vars, DeclaresReachable v.type p
  | [], acc => by simp [AddTupleImportsLoop]
  | ⟨name, type⟩ :: rest, acc => by
    rw [AddTupleImportsLoop, mem_AddTupleImportsLoop p rest, mem_AddTypeImports p type acc]
    simp only [List.mem_cons, exists_eq_or_imp, or_assoc]

end

/-- C1: run on an empty accumulator, `AddTypeImports` leaves exactly the package pointers
`Obj().Pkg()` of the Named types reachable from `t` through pointer, slice, array and channel
elements, map keys and values, tuple elements, signature parameters and results, struct fields
and interface methods, and nothing else. A Named type is a leaf: its underlying definition is
not visited. -/
theorem AddTypeImports_empty_eq_reachable (t : GoType) (p : Option types.Package) :
    p ∈ AddTypeImports t ∅ ↔ ∃ n : types.Named, ReachesNamed t n ∧ n.pkg = p := by
  rw [mem_AddTypeImports]
  simp [DeclaresReachable]

/-! ## Divergence of the pointer and slice renderers -/

theorem GenerateType_pointer_outOfFuel (fuel : Nat) (t : types.Pointer) :
    GenerateType fuel (.pointer t) = .error .outOfFuel := by
  induction fuel with
  | zero => rfl
  | succ n ih => simp only [GenerateType, generatePointerType, ih]; rfl

theorem GenerateType_slice_outOfFuel (fuel : Nat) (t : types.Slice) :
    GenerateType fuel (.slice t) = .error .outOfFuel := by
  induction fuel with
  | zero => rfl
  | succ n ih => simp only [GenerateType, generateSliceType, ih]; rfl

/-! ## Result lists -/

/-- C2: on a signature with zero results `generateFuncResults` does not return the empty
fragment: whatever the renderer `render` of the types and whatever the parameters, it faults
on `params[0]` with an index out of range. -/
theorem generateFuncResults_no_results_panics (render : Render) (params : types.Tuple)
    (variadic : Bool) :
    generateFuncResults render ⟨params, ⟨[]⟩, variadic⟩ = .error .indexOutOfRange := by
  rfl

theorem generateFuncResults_single_unnamed_render (render : Render) (params : types.Tuple)
    (ty : GoType) (variadic : Bool) :
    generateFuncResults render ⟨params, ⟨[⟨"", ty⟩]⟩, variadic⟩ = render ty := by
  simp only [generateFuncResults, generateFuncResultsLoop]
  cases h : render ty with
  | error e => rfl
  | ok c => rfl

/-- C3, amended: on a signature with exactly one result, which has no name and whose type
renders (to `code`), `generateFuncResults` returns that very fragment, bare: it is not wrapped
in a parenthesized list. -/
theorem generateFuncResults_single_unnamed (render : Render) (params : types.Tuple)
    (ty : GoType) (variadic : Bool) (code : Code) (h : render ty = .ok code) :
    generateFuncResults render ⟨params, ⟨[⟨"", ty⟩]⟩, variadic⟩ = .ok code := by
  rw [generateFuncResults_single_unnamed_render, h]

theorem generateFuncResults_single_unnamed_witness :
    generateFuncResults (GenerateType 1) sigSize = .ok (.stmt [.keyword "int"]) :=
  generateFuncResults_single_unnamed (GenerateType 1) ⟨[]⟩ tInt false (.stmt [.keyword "int"])
    rfl

theorem generateFuncResults_sigAddr (fuel : Nat) :
    generateFuncResults (GenerateType fuel) sigAddr =
      .error (if fuel = 0 then .outOfFuel else .unsupportedType) := by
  cases fuel with
  | zero => rfl
  | succ n => rfl

/-- C3, as stated, fails: the signature of `Addr() unsafe.Pointer` has exactly one result,
which has no name, and `generateFuncResults` returns no fragment, whatever the fuel, the
result type being one that `generateBasicType` rejects. -/
theorem generateFuncResults_single_unnamed_unsupported :
    ¬ ∃ (fuel : Nat) (code : Code),
      generateFuncResults (GenerateType fuel) sigAddr = .ok code := by
  rintro ⟨fuel, code, h⟩
  rw [generateFuncResults_sigAddr] at h
  cases h

theorem generateFuncResultsLoop_ok (render : Render) (r : GoType → Code) :
    ∀ (vs : List types.Var) (areNamed : Bool) (params : List Code),
      (∀ v ∈ vs, render v.type = .ok (r v.type)) →
      generateFuncResultsLoop render vs areNamed params =
        .ok (areNamed || vs.any (fun v => decide (v.name ≠ "")), params ++ vs.map (listEntry r))
  | [], areNamed, params, _ => by simp [generateFuncResultsLoop, pure, Except.pure]
  | v :: rest, areNamed, params, h => by
    have hv : render v.type = .ok (r v.type) := h v (List.mem_cons_self _ _)
    have hrest : ∀ w ∈ rest, render w.type = .ok (r w.type) :=
      fun w hw => h w (List.mem_cons_of_mem _ hw)
    by_cases hn : v.name = ""
    · simp [generateFuncResultsLoop, hn, hv, bind, Except.bind, listEntry,
        generateFuncResultsLoop_ok render r rest _ _ hrest]
    · simp [generateFuncResultsLoop, hn, hv, bind, Except.bind, listEntry, jen.Id, Statement.Add,
        generateFuncResultsLoop_ok render r rest _ _ hrest]

/-- C4, amended: on a signature with two or more results, or with a named result, whose
result types render (to `r`), `generateFuncResults` returns the parenthesized list with one
entry per result, in declared order: name + rendered type for a named result, the bare
rendered type otherwise. -/
theorem generateFuncResults_list (render : Render) (r : GoType → Code) (t : types.Signature)
    (hr : ∀ v ∈ t.results.vars, render v.type = .ok (r v.type))
    (h : 2 ≤ t.results.vars.length ∨ ∃ v ∈ t.results.vars, v.name ≠ "") :
    generateFuncResults render t =
      .ok (.stmt [.group .params (t.results.vars.map (listEntry r))]) := by
  have hcond : (decide (t.results.vars.length > 1) ||
      (false || t.results.vars.any (fun v => decide (v.name ≠ "")))) = true := by
    rcases h with h | ⟨v, hv, hn⟩
    · simp; left; omega
    · simp; right; exact ⟨v, hv, hn⟩
  simp only [generateFuncResults, generateFuncResultsLoop_ok render r _ _ _ hr, bind, Except.bind]
  rw [if_pos hcond]
  rfl


theorem generateFuncResults_list_witness :
    generateFuncResults (GenerateType 1) sigGet =
      .ok (.stmt [.group .params [.stmt [.id "value", .stmt [.keyword "int"]],
        .stmt [.id "ok", .stmt [.keyword "bool"]]]]) :=
  generateFuncResults_list (GenerateType 1) (rendered 1) sigGet
    (by
      intro v hv
      simp only [sigGet, List.mem_cons, List.mem_singleton, List.not_mem_nil, or_false] at hv
      rcases hv with rfl | rfl <;> rfl)
    (Or.inl (by decide))

theorem generateFuncResults_sigSwap (fuel : Nat) :
    generateFuncResults (GenerateType fuel) sigSwap =
      .error (if fuel = 0 then .outOfFuel else .unsupportedType) := by
  cases fuel with
  | zero => rfl
  | succ n => rfl

/-- C4, as stated, fails: the results `(old unsafe.Pointer, ok bool)` are two and named, and
`generateFuncResults` returns no list, whatever the fuel, the first result type being one
that `generateBasicType` rejects. -/
theorem generateFuncResults_list_unsupported :
    ¬ ∃ (fuel : Nat) (code : Code),
      generateFuncResults (GenerateType fuel) sigSwap = .ok code := by
  rintro ⟨fuel, code, h⟩
  rw [generateFuncResults_sigSwap] at h
  cases h

/-! ## Parameter lists -/

theorem generateFuncParamsLoop_ok (render : Render) (r : GoType → Code) :
    ∀ (vs : List types.Var) (params : List Code),
      (∀ v ∈ vs, render v.type = .ok (r v.type)) →
      generateFuncParamsLoop render vs params = .ok (params ++ vs.map (listEntry r))
  | [], params, _ => by simp [generateFuncParamsLoop, pure, Except.pure]
  | v :: rest, params, h => by
    have hv : render v.type = .ok (r v.type) := h v (List.mem_cons_self _ _)
    have hrest : ∀ w ∈ rest, render w.type = .ok (r w.type) :=
      fun w hw => h w (List.mem_cons_of_mem _ hw)
    by_cases hn : v.name = ""
    · simp [generateFuncParamsLoop, hn, hv, bind, Except.bind, listEntry,
        generateFuncParamsLoop_ok render r rest _ hrest]
    · simp [generateFuncParamsLoop, hn, hv, bind, Except.bind, listEntry, jen.Id, Statement.Add,
        generateFuncParamsLoop_ok render r rest _ hrest]

/-- C6, amended: on a signature that is not variadic and whose parameter types render (to
`r`), `generateFuncParams` returns the parenthesized list with one entry per parameter, in
declared order: name + rendered type for a named parameter, the bare rendered type
otherwise. -/
theorem generateFuncParams_list (render : Render) (r : GoType → Code) (params results : types.Tuple)
    (hr : ∀ v ∈ params.vars, render v.type = .ok (r v.type)) :
    generateFuncParams render ⟨params, results, false⟩ =
      .ok (.stmt [.group .params (params.vars.map (listEntry r))]) := by
  simp [generateFuncParams, generateFuncParamsLoop_ok render r _ _ hr, bind, Except.bind]
  rfl

theorem generateFuncParams_list_witness :
    generateFuncParams (GenerateType 1) ⟨⟨[⟨"key", tString⟩, ⟨"", tInt⟩]⟩, ⟨[]⟩, false⟩ =
      .ok (.stmt [.group .params [.stmt [.id "key", .stmt [.keyword "string"]],
        .stmt [.keyword "int"]]]) :=
  generateFuncParams_list (GenerateType 1) (rendered 1) ⟨[⟨"key", tString⟩, ⟨"", tInt⟩]⟩ ⟨[]⟩
    (by
      intro v hv
      simp only [List.mem_cons, List.mem_singleton, List.not_mem_nil, or_false] at hv
      rcases hv with rfl | rfl <;> rfl)

theorem generateFuncParams_sigSwap (fuel : Nat) :
    generateFuncParams (GenerateType fuel) sigSwap =
      .error (if fuel = 0 then .outOfFuel else .unsupportedType) := by
  cases fuel with
  | zero => rfl
  | succ n => rfl

/-- C6, as stated, fails: the signature of `Swap(p unsafe.Pointer)` is not variadic, and
`generateFuncParams` returns no list, whatever the fuel, the parameter type being one that
`generateBasicType` rejects. -/
theorem generateFuncParams_list_unsupported :
    ¬ ∃ (fuel : Nat) (code : Code),
      generateFuncParams (GenerateType fuel) sigSwap = .ok code := by
  rintro ⟨fuel, code, h⟩
  rw [generateFuncParams_sigSwap] at h
  cases h

/-- C5: on the variadic signature of `Sum(xs ...int)` `generateFuncParams` never returns: with
any fuel the rendering of the last parameter runs out of it. The entry of the last parameter
is built from the rendering of its whole type `[]int`, not of the element type `int`. -/
theorem generateFuncParams_variadic_whole_type :
    (∀ fuel : Nat, generateFuncParams (GenerateType fuel) sigSum = .error .outOfFuel) ∧
    (∀ render : Render, generateFuncParams render sigSum =
      (render (.slice ⟨tInt⟩)).map fun c =>
        .stmt [.group .params [.stmt [.id "xs", .stmt [.op "..."], c]]]) := by
  have h : ∀ render : Render, generateFuncParams render sigSum =
      (render (.slice ⟨tInt⟩)).map fun c =>
        .stmt [.group .params [.stmt [.id "xs", .stmt [.op "..."], c]]] := by
    intro render
    cases h : render (.slice ⟨tInt⟩) <;>
      simp [generateFuncParams, sigSum, generateFuncParamsLoop, h, bind, Except.bind,
        Except.map, pure, Except.pure, jen.Params, jen.Id, jen.Op, Statement.Add]
  refine ⟨fun fuel => ?_, h⟩
  rw [h, GenerateType_slice_outOfFuel]
  rfl

/-! ## Filtering interfaces by name -/

theorem mem_namesMap (s : String) :
    ∀ (names : List String) (m : Finset String),
      s ∈ names.foldl (fun m name => insert name m) m ↔ s ∈ m ∨ s ∈ names
  | [], m => by simp
  | name :: rest, m => by
    rw [List.foldl_cons, mem_namesMap s rest, Finset.mem_insert, List.mem_cons]
    tauto

theorem filterLoop_eq (p : Interface → Prop) [DecidablePred p] :
    ∀ (items filteredItems : List Interface),
      items.foldl (fun acc item => if p item then acc ++ [item] else acc) filteredItems =
        filteredItems ++ items.filter (fun item => decide (p item))
  | [], filteredItems => by simp
  | item :: rest, filteredItems => by
    rw [List.foldl_cons, filterLoop_eq p rest]
    by_cases h : p item <;> simp [h, List.filter_cons]

theorem FilterInterfaces_eq_filter (items : List Interface) (names : List String) :
    FilterInterfaces items names = items.filter (fun item => decide (item.Name ∈ names)) := by
  unfold FilterInterfaces
  simp only []
  rw [filterLoop_eq]
  simp [mem_namesMap]

/-- C7: `FilterInterfaces(items, names)` is `items` with the entries whose `Name` does not
occur in `names` removed: the entries kept stay in their order and multiplicity, the list is
a subsequence of `items`, the order of `names` and a name that matches no entry play no part,
and the function is total. -/
theorem FilterInterfaces_spec (items : List Interface) (names names2 : List String) :
    FilterInterfaces items names = items.filter (fun item => decide (item.Name ∈ names)) ∧
    List.Sublist (FilterInterfaces items names) items ∧
    FilterInterfaces items (names ++ names2) = FilterInterfaces items (names2 ++ names) ∧
    FilterInterfaces items names.reverse = FilterInterfaces items names ∧
    FilterInterfaces items
        (names ++ names2.filter (fun name => decide (∀ item ∈ items, item.Name ≠ name))) =
      FilterInterfaces items names := by
  refine ⟨FilterInterfaces_eq_filter items names, ?_, ?_, ?_, ?_⟩
  · rw [FilterInterfaces_eq_filter]; exact List.filter_sublist _
  · simp only [FilterInterfaces_eq_filter, List.mem_append, or_comm]
  · simp only [FilterInterfaces_eq_filter, List.mem_reverse]
  · simp only [FilterInterfaces_eq_filter]
    apply List.filter_congr
    intro item hitem
    simp only [List.mem_append, List.mem_filter, decide_eq_true_eq, decide_eq_decide]
    constructor
    · rintro (h | ⟨_, h⟩)
      · exact h
      · exact absurd rfl (h item hitem)
    · exact Or.inl

/-! ## Method synthesis -/

theorem GenerateMethod_ok {σ : Type} (render : Render) (typeName receiver method : String)
    (signature : types.Signature) (bodyFunc : σ → Code × σ) (st : σ) (p r : Code)
    (hp : generateFuncParams render signature = .ok p)
    (hr : generateFuncResults render signature = .ok r) :
    GenerateMethod render typeName receiver method signature bodyFunc st =
      .ok (methodDecl typeName receiver method p r (bodyFunc st).1, (bodyFunc st).2) := by
  simp only [GenerateMethod, hp, hr, bind, Except.bind]
  rfl

theorem ImplementInterfaceMethodsLoop_ok {σ : Type} (render : Render)
    (typeName receiver : String) (f : String → types.Signature → σ → Code × σ)
    (p r : types.Signature → Code) :
    ∀ (methods : List types.Func) (funcs : List Code) (st : σ),
      (∀ m ∈ signatureMethods ⟨methods⟩,
        generateFuncParams render m.2 = .ok (p m.2) ∧
          generateFuncResults render m.2 = .ok (r m.2)) →
      ImplementInterfaceMethodsLoop render typeName receiver f methods funcs st =
        .ok (funcs ++ (synthesized p r typeName receiver f (signatureMethods ⟨methods⟩) st).1,
          (synthesized p r typeName receiver f (signatureMethods ⟨methods⟩) st).2)
  | [], funcs, st, _ => by
    simp [ImplementInterfaceMethodsLoop, signatureMethods, synthesized, pure, Except.pure]
  | ⟨name, type⟩ :: rest, funcs, st, h => by
    cases type with
    | signature s =>
      have hs : signatureMethods ⟨⟨name, .signature s⟩ :: rest⟩ =
          (name, s) :: signatureMethods ⟨rest⟩ := by
        simp [signatureMethods]
      rw [hs] at h ⊢
      have h1 := h (name, s) (List.mem_cons_self _ _)
      have hrest := fun m hm => h m (List.mem_cons_of_mem _ hm)
      simp only [ImplementInterfaceMethodsLoop,
        GenerateMethod_ok render typeName receiver name s _ st _ _ h1.1 h1.2, bind, Except.bind,
        ImplementInterfaceMethodsLoop_ok render typeName receiver f p r rest _ _ hrest,
        synthesized, List.append_assoc, List.singleton_append]
    | _ =>
      all_goals
        have ih := ImplementInterfaceMethodsLoop_ok render typeName receiver f p r rest funcs st
        simp only [signatureMethods, List.filterMap_cons] at h ih ⊢
        simp only [ImplementInterfaceMethodsLoop]
        exact ih h

theorem synthesized_length {σ : Type} (p r : types.Signature → Code) (typeName receiver : String)
    (f : String → types.Signature → σ → Code × σ) :
    ∀ (ms : List (String × types.Signature)) (st : σ),
      (synthesized p r typeName receiver f ms st).1.length = ms.length
  | [], _ => rfl
  | m :: rest, st => by
    simp [synthesized, synthesized_length p r typeName receiver f rest]

theorem synthesized_state {σ : Type} (p r : types.Signature → Code) (typeName receiver : String)
    (f : String → types.Signature → σ → Code × σ) :
    ∀ (ms : List (String × types.Signature)) (st : σ),
      (synthesized p r typeName receiver f ms st).2 =
        ms.foldl (fun st m => (f m.1 m.2 st).2) st
  | [], _ => rfl
  | m :: rest, st => by
    simp [synthesized, synthesized_state p r typeName receiver f rest]

/-- C8, amended: on an interface whose Signature-typed methods have parameter and result
lists that render (to `p` and `r`), `ImplementInterfaceMethods` returns one declaration per
Signature-typed method, in declaration order, and skips the other methods; the callback is
run once per Signature-typed method, in that order, with the name and the signature of the
method, and for no other method: the state it leaves is the one these calls produce. -/
theorem ImplementInterfaceMethods_spec {σ : Type} (render : Render) (typeName receiver : String)
    (iface : types.Interface) (f : String → types.Signature → σ → Code × σ) (st : σ)
    (p r : types.Signature → Code)
    (h : ∀ m ∈ signatureMethods iface,
      generateFuncParams render m.2 = .ok (p m.2) ∧ generateFuncResults render m.2 = .ok (r m.2)) :
    ImplementInterfaceMethods render typeName receiver iface f st =
        .ok (synthesized p r typeName receiver f (signatureMethods iface) st) ∧
      (synthesized p r typeName receiver f (signatureMethods iface) st).1.length =
        (signatureMethods iface).length ∧
      (synthesized p r typeName receiver f (signatureMethods iface) st).2 =
        (signatureMethods iface).foldl (fun st m => (f m.1 m.2 st).2) st := by
  refine ⟨?_, synthesized_length _ _ _ _ _ _ _, synthesized_state _ _ _ _ _ _ _⟩
  cases iface with
  | mk methods =>
    simp only [ImplementInterfaceMethods,
      ImplementInterfaceMethodsLoop_ok render typeName receiver f p r methods [] st h,
      List.nil_append]

theorem ImplementInterfaceMethods_spec_witness :
    ImplementInterfaceMethods (GenerateType 1) "Stub" "s" storeIface recordCall [] =
      .ok ([methodDecl "Stub" "s" "Get"
              (.stmt [.group .params [.stmt [.id "key", .stmt [.keyword "string"]]]])
              (.stmt [.group .params [.stmt [.id "value", .stmt [.keyword "int"]],
                .stmt [.id "ok", .stmt [.keyword "bool"]]]])
              (.id "Get"),
            methodDecl "Stub" "s" "Size" (.stmt [.group .params []]) (.stmt [.keyword "int"])
              (.id "Size")],
          [("Get", sigGet), ("Size", sigSize)]) :=
  (ImplementInterfaceMethods_spec (GenerateType 1) "Stub" "s" storeIface recordCall []
    (renderedParams 1) (renderedResults 1)
    (by
      intro m hm
      simp only [signatureMethods, storeIface, List.filterMap_cons, List.filterMap_nil,
        List.mem_cons, List.mem_singleton, List.not_mem_nil, or_false] at hm
      rcases hm with rfl | rfl <;> exact ⟨rfl, rfl⟩)).1

theorem ImplementInterfaceMethods_swapIface (fuel : Nat) :
    ImplementInterfaceMethods (GenerateType fuel) "Stub" "s" swapIface recordCall [] =
      .error (if fuel = 0 then .outOfFuel else .unsupportedType) := by
  cases fuel with
  | zero => rfl
  | succ n => rfl

/-- C8, as stated, fails: on the interface with the single method
`Swap(p unsafe.Pointer) (old unsafe.Pointer, ok bool)` `ImplementInterfaceMethods` returns no
declaration, whatever the fuel, the parameter type being one that `generateBasicType`
rejects. -/
theorem ImplementInterfaceMethods_unsupported :
    ¬ ∃ (fuel : Nat) (out : List Code × List (String × types.Signature)),
      ImplementInterfaceMethods (GenerateType fuel) "Stub" "s" swapIface recordCall [] =
        .ok out := by
  rintro ⟨fuel, out, h⟩
  rw [ImplementInterfaceMethods_swapIface] at h
  cases h

/-- C9: `GenerateMethod` on `Get(key string) (value int, ok bool)` for the receiver type `Stub`
with binding `s` returns the declaration `func (s Stub) Get(key string) (value int, ok bool)`
with the fragment of the callback as its body; on `Close() error` it returns no declaration:
it faults on the nil package of `error` (with no fuel at all, it runs out of fuel). -/
theorem GenerateMethod_Get_and_Close :
    (∀ (fuel : Nat) (σ : Type) (bodyFunc : σ → Code × σ) (st : σ),
      GenerateMethod (GenerateType (fuel + 1)) "Stub" "s" "Get" sigGet bodyFunc st =
        .ok (.stmt [.keyword "func", .group .params [.stmt [.id "s", .id "Stub"]], .id "Get",
          .stmt [.group .params [.stmt [.id "key", .stmt [.keyword "string"]]]],
          .stmt [.group .params [.stmt [.id "value", .stmt [.keyword "int"]],
            .stmt [.id "ok", .stmt [.keyword "bool"]]]],
          .group .block [.stmt [(bodyFunc st).1]]], (bodyFunc st).2)) ∧
    (∀ (fuel : Nat) (σ : Type) (bodyFunc : σ → Code × σ) (st : σ),
      GenerateMethod (GenerateType fuel) "Stub" "s" "Close" sigClose bodyFunc st =
        .error (if fuel = 0 then .outOfFuel else .nilDereference)) := by
  constructor
  · intro fuel σ bodyFunc st
    rfl
  · intro fuel σ bodyFunc st
    cases fuel with
    | zero => rfl
    | succ n => rfl

/-! ## Self-referential structs -/

/-- C10: on the self-referential struct `type Node struct { next *Node }` `GenerateType`
returns no fragment: with any fuel the rendering of the pointer field runs out of it, the
pointer renderer calling `GenerateType` on the pointer type itself. -/
theorem GenerateType_listNode_never_returns (fuel : Nat) :
    GenerateType fuel listNode = .error .outOfFuel := by
  cases fuel with
  | zero => rfl
  | succ n =>
    simp only [listNode, GenerateType, generateStructType, generateStructTypeLoop,
      GenerateType_pointer_outOfFuel]
    rfl

/-! ## Import collection: termination -/

mutual

theorem AddTypeImportsWithin_of_depth_le :
    ∀ (t : GoType) (fuel : Nat) (acc : Imports), t.depth ≤ fuel →
      AddTypeImportsWithin fuel t acc = some (AddTypeImports t acc)
  | .interface ⟨methods⟩, fuel, acc, h => by
    cases fuel with
    | zero => simp [GoType.depth] at h
    | succ n =>
      simp only [GoType.depth, Nat.add_le_add_iff_right] at h
      simp only [AddTypeImportsWithin, AddTypeImports, AddInterfaceImports,
        AddImportsLoopWithin_funcs methods n acc h]
  | .struct ⟨fields⟩, fuel, acc, h => by
    cases fuel with
    | zero => simp [GoType.depth] at h
    | succ n =>
      simp only [GoType.depth, Nat.add_le_add_iff_right] at h
      simp only [AddTypeImportsWithin, AddTypeImports, AddStructImports,
        AddImportsLoopWithin_fields fields n acc h]
  | .signature ⟨⟨params⟩, ⟨results⟩, variadic⟩, fuel, acc, h => by
    cases fuel with
    | zero => simp [GoType.depth] at h
    | succ n =>
      simp only [GoType.depth, Nat.add_le_add_iff_right, max_le_iff] at h
      simp only [AddTypeImportsWithin, AddTypeImports, AddFuncImports, AddTupleImports,
        AddImportsLoopWithin_vars params n acc h.1, AddImportsLoopWithin_vars results n _ h.2]
  | .tuple ⟨vars⟩, fuel, acc, h => by
    cases fuel with
    | zero => simp [GoType.depth] at h
    | succ n =>
      simp only [GoType.depth, Nat.add_le_add_iff_right] at h
      simp only [AddTypeImportsWithin, AddTypeImports, AddTupleImports,
        AddImportsLoopWithin_vars vars n acc h]
  | .map ⟨key, elem⟩, fuel, acc, h => by
    cases fuel with
    | zero => simp [GoType.depth] at h
    | succ n =>
      simp only [GoType.depth, Nat.add_le_add_iff_right, max_le_iff] at h
      simp only [AddTypeImportsWithin, AddTypeImports, AddMapImports,
        AddTypeImportsWithin_of_depth_le key n acc h.1,
        AddTypeImportsWithin_of_depth_le elem n _ h.2]
  | .chan ⟨dir, elem⟩, fuel, acc, h => by
    cases fuel with
    | zero => simp [GoType.depth] at h
    | succ n =>
      simp only [GoType.depth, Nat.add_le_add_iff_right] at h
      simp only [AddTypeImportsWithin, AddTypeImports, AddChanImports,
        AddTypeImportsWithin_of_depth_le elem n acc h]
  | .slice ⟨elem⟩, fuel, acc, h => by
    cases fuel with
    | zero => simp [GoType.depth] at h
    | succ n =>
      simp only [GoType.depth, Nat.add_le_add_iff_right] at h
      simp only [AddTypeImportsWithin, AddTypeImports, AddSliceImports,
        AddTypeImportsWithin_of_depth_le elem n acc h]
  | .array ⟨len, elem⟩, fuel, acc, h => by
    cases fuel with
    | zero => simp [GoType.depth] at h
    | succ n =>
      simp only [GoType.depth, Nat.add_le_add_iff_right] at h
      simp only [AddTypeImportsWithin, AddTypeImports, AddArrayImports,
        AddTypeImportsWithin_of_depth_le elem n acc h]
  | .pointer ⟨elem⟩, fuel, acc, h => by
    cases fuel with
    | zero => simp [GoType.depth] at h
    | succ n =>
      simp only [GoType.depth, Nat.add_le_add_iff_right] at h
      simp only [AddTypeImportsWithin, AddTypeImports, AddPointerImports,
        AddTypeImportsWithin_of_depth_le elem n acc h]
  | .named v, fuel, acc, h => by
    cases fuel with
    | zero => simp [GoType.depth] at h
    | succ n => simp only [AddTypeImportsWithin, AddTypeImports]
  | .basic v, fuel, acc, h => by
    cases fuel with
    | zero => simp [GoType.depth] at h
    | succ n => simp only [AddTypeImportsWithin, AddTypeImports]

theorem AddImportsLoopWithin_vars :
    ∀ (vars : List types.Var) (fuel : Nat) (acc : Imports), depthVars vars ≤ fuel →
      AddImportsLoopWithin (AddTypeImportsWithin fuel) (vars.map fun p => p.type) acc =
        some (AddTupleImportsLoop vars acc)
  | [], fuel, acc, _ => by simp [AddImportsLoopWithin, AddTupleImportsLoop]
  | ⟨name, type⟩ :: rest, fuel, acc, h => by
    simp only [depthVars, max_le_iff] at h
    simp only [List.map_cons, AddImportsLoopWithin, AddTupleImportsLoop,
      AddTypeImportsWithin_of_depth_le type fuel acc h.1,
      AddImportsLoopWithin_vars rest fuel _ h.2]

theorem AddImportsLoopWithin_fields :
    ∀ (fields : List types.Var) (fuel : Nat) (acc : Imports), depthVars fields ≤ fuel →
      AddImportsLoopWithin (AddTypeImportsWithin fuel) (fields.map fun f => f.type) acc =
        some (AddStructImportsLoop fields acc)
  | [], fuel, acc, _ => by simp [AddImportsLoopWithin, AddStructImportsLoop]
  | ⟨name, type⟩ :: rest, fuel, acc, h => by
    simp only [depthVars, max_le_iff] at h
    simp only [List.map_cons, AddImportsLoopWithin, AddStructImportsLoop,
      AddTypeImportsWithin_of_depth_le type fuel acc h.1,
      AddImportsLoopWithin_fields rest fuel _ h.2]

theorem AddImportsLoopWithin_funcs :
    ∀ (methods : List types.Func) (fuel : Nat) (acc : Imports), depthFuncs methods ≤ fuel →
      AddImportsLoopWithin (AddTypeImportsWithin fuel) (methods.map fun m => m.type) acc =
        some (AddInterfaceImportsLoop methods acc)
  | [], fuel, acc, _ => by simp [AddImportsLoopWithin, AddInterfaceImportsLoop]
  | ⟨name, type⟩ :: rest, fuel, acc, h => by
    simp only [depthFuncs, max_le_iff] at h
    simp only [List.map_cons, AddImportsLoopWithin, AddInterfaceImportsLoop,
      AddTypeImportsWithin_of_depth_le type fuel acc h.1,
      AddImportsLoopWithin_funcs rest fuel _ h.2]

end

/-- C11: `AddTypeImports` terminates on every type: a budget of `t.depth` nested calls, or any
greater one, is enough for the call to return, with the accumulator of `AddTypeImports`. A
Named type is a leaf of the recursion: the call on it returns within a budget of one, with
nothing but its package added. A self-referential struct, `type Node struct { next *Node }`,
is of depth 3 and its call returns the package of `Node`. -/
theorem AddTypeImports_terminates (t : GoType) (acc : Imports) (extra : Nat) :
    AddTypeImportsWithin (t.depth + extra) t acc = some (AddTypeImports t acc) ∧
    (∀ v : types.Named, AddTypeImportsWithin 1 (.named v) acc = some (insert v.pkg acc)) ∧
    AddTypeImportsWithin 3 listNode ∅ = some {some ⟨"example.com/list", "list"⟩} := by
  refine ⟨AddTypeImportsWithin_of_depth_le t _ acc (Nat.le_add_right _ _), fun v => rfl, ?_⟩
  decide

/-! ## Import collection: union with the accumulator -/

/-- C12: `AddTypeImports` unites the accumulator with what `t` gives on an empty one. So no
entry of the accumulator is lost, a second call with the same type changes nothing, and two
types give the same set in either order. -/
theorem AddTypeImports_union (t u : GoType) (acc : Imports) :
    AddTypeImports t acc = acc ∪ AddTypeImports t ∅ ∧
    acc ⊆ AddTypeImports t acc ∧
    AddTypeImports t (AddTypeImports t acc) = AddTypeImports t acc ∧
    AddTypeImports u (AddTypeImports t acc) = AddTypeImports t (AddTypeImports u acc) := by
  refine ⟨?_, ?_, ?_, ?_⟩
  · ext p
    simp only [Finset.mem_union, mem_AddTypeImports, Finset.not_mem_empty, false_or]
  · intro p hp
    exact (mem_AddTypeImports p t acc).2 (Or.inl hp)
  · ext p
    simp only [mem_AddTypeImports, or_assoc, or_self]
  · ext p
    simp only [mem_AddTypeImports]
    tauto

/-! ## Basic types -/

theorem generateBasicType_eq (t : types.Basic) :
    generateBasicType t =
      if t.name ∈ basicNames then .ok (.stmt [.keyword t.name]) else .error .unsupportedType := by
  unfold generateBasicType
  split <;> simp_all [basicNames] <;> rfl

/-- C13: `generateBasicType` returns, for each of the 19 names of the table, the statement
holding the primitive word of that same name, and faults with `unsupported type` for every
other name: it returns a fragment if and only if the name is in the table. -/
theorem generateBasicType_table (t : types.Basic) :
    generateBasicType t =
        (if t.name ∈ basicNames then .ok (.stmt [.keyword t.name])
          else .error .unsupportedType) ∧
      ((∃ code, generateBasicType t = .ok code) ↔ t.name ∈ basicNames) ∧
      basicNames.length = 19 := by
  refine ⟨generateBasicType_eq t, ?_, rfl⟩
  rw [generateBasicType_eq]
  by_cases h : t.name ∈ basicNames <;> simp [h]

/-! ## Maps, pointers, slices and channels -/

/-- C14: `GenerateType` returns no fragment for a map type, `map[string]int` or any other:
with any fuel the rendering runs out of it, `generateMapType` calling `GenerateType` on the
map type itself where the key and the element were meant. -/
theorem GenerateType_map_never_returns (fuel : Nat) (t : types.Map) :
    GenerateType fuel (.map t) = .error .outOfFuel ∧
      GenerateType fuel (.map ⟨tString, tInt⟩) = .error .outOfFuel := by
  have h : ∀ (n : Nat) (m : types.Map), GenerateType n (.map m) = .error .outOfFuel := by
    intro n m
    induction n with
    | zero => rfl
    | succ n ih => simp only [GenerateType, generateMapType, ih]; rfl
  exact ⟨h fuel t, h fuel _⟩

/-- C15: `GenerateType` returns no fragment for a pointer type, `*int` or any other: with any
fuel the rendering runs out of it, `generatePointerType` calling `GenerateType` on the
pointer type itself where the element was meant. -/
theorem GenerateType_pointer_never_returns (fuel : Nat) (t : types.Pointer) :
    GenerateType fuel (.pointer t) = .error .outOfFuel ∧
      GenerateType fuel (.pointer ⟨tInt⟩) = .error .outOfFuel :=
  ⟨GenerateType_pointer_outOfFuel fuel t, GenerateType_pointer_outOfFuel fuel _⟩

/-- C16: `GenerateType` returns no fragment for a slice type, `[]int` or any other: with any
fuel the rendering runs out of it, `generateSliceType` calling `GenerateType` on the slice
type itself where the element was meant. -/
theorem GenerateType_slice_never_returns (fuel : Nat) (t : types.Slice) :
    GenerateType fuel (.slice t) = .error .outOfFuel ∧
      GenerateType fuel (.slice ⟨tInt⟩) = .error .outOfFuel :=
  ⟨GenerateType_slice_outOfFuel fuel t, GenerateType_slice_outOfFuel fuel _⟩

/-- C17: `GenerateType` returns no fragment for a channel type, whatever its direction,
`chan int`, `chan<- int`, `<-chan int` or any other: with any fuel the rendering runs out of
it, `generateChanType` calling `GenerateType` on the channel type itself in each of its three
branches. -/
theorem GenerateType_chan_never_returns (fuel : Nat) (t : types.Chan) :
    GenerateType fuel (.chan t) = .error .outOfFuel ∧
      GenerateType fuel (.chan ⟨.SendRecv, tInt⟩) = .error .outOfFuel ∧
      GenerateType fuel (.chan ⟨.SendOnly, tInt⟩) = .error .outOfFuel ∧
      GenerateType fuel (.chan ⟨.RecvOnly, tInt⟩) = .error .outOfFuel := by
  have h : ∀ (n : Nat) (c : types.Chan), GenerateType n (.chan c) = .error .outOfFuel := by
    intro n c
    induction n with
    | zero => rfl
    | succ n ih =>
      obtain ⟨dir, elem⟩ := c
      cases dir <;> simp only [GenerateType, generateChanType, ih] <;> rfl
  exact ⟨h fuel t, h fuel _, h fuel _, h fuel _⟩

/-! ## Arrays -/

/-- C18: for the array type `[3]int` `GenerateType` returns the index group holding the
string literal of the text `3`, not the integer literal 3, followed by the rendering of
`int`: it is not the fragment of `[3]int`. For every length and element type the length
reaches `jen.Lit` as the string `strconv.FormatInt` made of it. -/
theorem GenerateType_array_string_literal :
    GenerateType 2 (.array ⟨3, tInt⟩) =
        .ok (.stmt [.group .index [.stmt [.litString "3"]], .stmt [.keyword "int"]]) ∧
      GenerateType 2 (.array ⟨3, tInt⟩) ≠ .ok (arrayFragment 3 (.stmt [.keyword "int"])) ∧
      (∀ (fuel : Nat) (len : Int) (elem : GoType),
        GenerateType (fuel + 1) (.array ⟨len, elem⟩) =
          (GenerateType fuel elem).map fun code =>
            .stmt [.group .index [.stmt [.litString (toString len)]], code]) := by
  have h1 : GenerateType 2 (.array ⟨3, tInt⟩) =
      .ok (.stmt [.group .index [.stmt [.litString "3"]], .stmt [.keyword "int"]]) := by
    rfl
  refine ⟨h1, ?_, ?_⟩
  · rw [h1]
    simp [arrayFragment]
  · intro fuel len elem
    simp only [GenerateType, generateArrayType]
    cases GenerateType fuel elem <;> rfl

/-! ## Interfaces -/

theorem generateInterfaceTypeLoop_appends (render : Render) :
    ∀ (ms : List types.Func) (acc out : List Code),
      generateInterfaceTypeLoop render ms acc = .ok out →
      ∃ entries, out = acc ++ entries ∧ entries.length ≤ ms.length
  | [], acc, out, h => by
    simp only [generateInterfaceTypeLoop, pure, Except.pure, Except.ok.injEq] at h
    exact ⟨[], by simp [h]⟩
  | ⟨name, type⟩ :: rest, acc, out, h => by
    simp only [generateInterfaceTypeLoop, bind, Except.bind] at h
    split at h
    · cases h
    · rename_i acc1 h1
      split at h
      · cases h
      · rename_i acc2 h2
        obtain ⟨entries, rfl, hlen⟩ := generateInterfaceTypeLoop_appends render rest acc2 out h
        have hstep : ∃ step, acc2 = acc ++ step ∧ step.length ≤ 1 := by
          cases type with
          | named nd =>
            simp only [generateInterfaceTypeNamed, bind, Except.bind] at h1
            simp only [generateInterfaceTypeSignature, pure, Except.pure,
              Except.ok.injEq] at h2
            subst h2
            split at h1
            · cases h1
            · simp only [pure, Except.pure, Except.ok.injEq] at h1
              exact ⟨_, h1.symm, by simp⟩
          | signature s =>
            simp only [generateInterfaceTypeNamed, pure, Except.pure, Except.ok.injEq] at h1
            subst h1
            simp only [generateInterfaceTypeSignature, bind, Except.bind] at h2
            split at h2
            · cases h2
            · split at h2
              · cases h2
              · simp only [pure, Except.pure, Except.ok.injEq] at h2
                exact ⟨_, h2.symm, by simp⟩
          | _ =>
            all_goals
              simp only [generateInterfaceTypeNamed, pure, Except.pure, Except.ok.injEq] at h1
              simp only [generateInterfaceTypeSignature, pure, Except.pure,
                Except.ok.injEq] at h2
              exact ⟨[], by simp [← h2, ← h1], by simp⟩
        obtain ⟨step, rfl, hs⟩ := hstep
        exact ⟨step ++ entries, by simp, by simp only [List.length_append, List.length_cons]; omega⟩

theorem generateInterfaceType_leading_nils (render : Render) (t : types.Interface) (code : Code)
    (h : generateInterfaceType render t = .ok code) :
    ∃ entries, code = .stmt [.group .interface
        (List.replicate t.methods.length Code.null ++ entries)] ∧
      entries.length ≤ t.methods.length := by
  simp only [generateInterfaceType, bind, Except.bind] at h
  split at h
  · cases h
  · rename_i out hout
    obtain ⟨entries, rfl, hlen⟩ := generateInterfaceTypeLoop_appends render _ _ _ hout
    simp only [pure, Except.pure, Except.ok.injEq] at h
    exact ⟨entries, h.symm, hlen⟩

/-- C19: for the interface `interface { Size() int }`, of one method, `GenerateType` returns
an interface group of two entries: a nil entry first, left by `make([]jen.Code, n)`, then the
entry of `Size`. -/
theorem GenerateType_interface_nil_entries (fuel : Nat) :
    GenerateType (fuel + 2) (.interface sizerIface) =
      .ok (.stmt [.group .interface [.null,
        .stmt [.id "Size", .stmt [.group .params []], .stmt [.keyword "int"]]]]) := by
  rfl

/-! ## Finding the interfaces of a package -/

theorem FindAllInterfacesLoop_eq (Underlying : types.Named → GoType) (pkgScope : types.Scope) :
    ∀ (names : List String) (items : List Interface),
      FindAllInterfacesLoop Underlying pkgScope names items =
        items ++ names.filterMap (interfaceEntry Underlying pkgScope)
  | [], items => by simp [FindAllInterfacesLoop]
  | name :: rest, items => by
    rw [FindAllInterfacesLoop, List.filterMap_cons, interfaceEntry]
    split
    · split <;> simp [FindAllInterfacesLoop_eq Underlying pkgScope rest]
    · simp [FindAllInterfacesLoop_eq Underlying pkgScope rest]

/-- C20, amended: `FindAllInterfaces` returns, in the order of `Names()`, one entry (name,
interface type) for each name of the scope whose object has a Named type with an Interface
as underlying type, and no entry for any other name. Whether the name is exported plays no
part. -/
theorem FindAllInterfaces_eq_filterMap (Underlying : types.Named → GoType)
    (pkgScope : types.Scope) :
    FindAllInterfaces Underlying pkgScope =
        pkgScope.Names.filterMap (interfaceEntry Underlying pkgScope) ∧
      List.Sublist ((FindAllInterfaces Underlying pkgScope).map fun item => item.Name)
        pkgScope.Names := by
  have h : FindAllInterfaces Underlying pkgScope =
      pkgScope.Names.filterMap (interfaceEntry Underlying pkgScope) := by
    simp [FindAllInterfaces, FindAllInterfacesLoop_eq]
  refine ⟨h, ?_⟩
  rw [h]
  generalize pkgScope.Names = names
  induction names with
  | nil => simp
  | cons name rest ih =>
    rw [List.filterMap_cons]
    cases hentry : interfaceEntry Underlying pkgScope name with
    | none => exact List.Sublist.cons _ ih
    | some item =>
      have hname : item.Name = name := by
        unfold interfaceEntry at hentry
        split at hentry
        · split at hentry
          · cases hentry; rfl
          · cases hentry
        · cases hentry
      simp only [List.map_cons, hname]
      exact List.Sublist.cons₂ _ ih

/-- C20, as stated, fails: in a package that declares the interfaces `Reader` and `reader`,
the type `count` and the variable `Default` of an interface type without a name,
`FindAllInterfaces` returns an entry for the unexported `reader`, and none for the exported
`Default`, whose type is an Interface but not a Named type. -/
theorem FindAllInterfaces_unexported :
    (FindAllInterfaces storeUnderlying storeScope).map (fun item => item.Name) =
        ["Reader", "reader"] ∧
      IsExported "reader" = false ∧
      IsExported "Default" = true ∧
      storeScope.LookupType "Default" = .interface sizerIface := by
  refine ⟨rfl, rfl, rfl, rfl⟩
